import Mathlib

/-!
Verification development for the InsightTrack sales dashboard
(src/app.py).  The pipeline is embedded shallowly: the numpy random
draws become an explicit stream of draw values (RandSrc) whose ranges
are the documented postconditions of np.random.choice / randint /
uniform, monetary values are exact rationals, np.round and
Series.round (round half to even) are modelled exactly, and the
pandas boolean-mask filter becomes List.filter.
-/

namespace InsightTrack

/-- Fixed region list (app.py line 21). -/
def regions : List String := ["North", "South", "East", "West"]

/-- Fixed category list (app.py line 22). -/
def cats : List String := ["Electronics", "Furniture", "Clothing", "Sports"]

/-- Number of generated orders (app.py line 25). -/
def num_orders : Nat := 120

/-- Round half to even to an integer, the rounding used by np.round and
by pandas Series.round. -/
def rhe (x : ℚ) : ℤ :=
  if x - (⌊x⌋ : ℚ) < 1/2 then ⌊x⌋
  else if 1/2 < x - (⌊x⌋ : ℚ) then ⌊x⌋ + 1
  else if ⌊x⌋ % 2 = 0 then ⌊x⌋ else ⌊x⌋ + 1

/-- Round to two decimal places, half to even: models np.round(x, 2) and
Series.round(2) (app.py lines 33, 40, 43, 45) over exact rationals. -/
def round2 (x : ℚ) : ℚ := (rhe (x * 100) : ℚ) / 100

/-- One run of the seeded numpy generator, as the streams of draw values
the source consumes: regionDraw/categoryDraw are the indices chosen by
np.random.choice (line 30 and 31), quantityDraw the values of
np.random.randint(1, 6) (line 32), priceDraw the values of
np.random.uniform(50, 1000) (line 33) and jitterDraw the values of
np.random.uniform(0.9, 1.1) (line 43).  np.random.seed(...) (line 18)
fixes these streams: a seed determines one RandSrc. -/
structure RandSrc where
  regionDraw : Nat → Nat
  categoryDraw : Nat → Nat
  quantityDraw : Nat → Nat
  priceDraw : Nat → ℚ
  jitterDraw : Nat → ℚ

/-- The documented ranges of the numpy draws: choice returns an index
into the 4-element list, randint(1, 6) returns a value in [1, 6),
uniform(lo, hi) returns a value in [lo, hi). -/
def ValidSrc (src : RandSrc) : Prop :=
  (∀ i, src.regionDraw i < 4) ∧
  (∀ i, src.categoryDraw i < 4) ∧
  (∀ i, 1 ≤ src.quantityDraw i ∧ src.quantityDraw i < 6) ∧
  (∀ i, 50 ≤ src.priceDraw i ∧ src.priceDraw i < 1000) ∧
  (∀ i, 9/10 ≤ src.jitterDraw i ∧ src.jitterDraw i < 11/10)

/-- One row of the DataFrame df after the derived columns are added
(app.py lines 27-45).  The date is stored as days since 2024-01-01, so
the weekly date_range (line 26) gives row i the date 7*i. -/
structure Order where
  orderID : Nat
  date : Nat
  region : String
  category : String
  quantity : Nat
  unitPrice : ℚ
  sales : ℚ
  profit : ℚ
  profitMargin : ℚ
deriving DecidableEq

/-- Category to margin rate lookup (app.py line 42).  Series.map gives a
missing value outside the table; that case is unreachable because every
generated category is one of the four keys. -/
def profit_map (c : String) : ℚ :=
  if c = "Electronics" then 12/100
  else if c = "Furniture" then 20/100
  else if c = "Clothing" then 35/100
  else if c = "Sports" then 25/100
  else 0

/-- Row i of df: the raw order fields (lines 27-34) together with the
derived Sales, Profit and ProfitMargin columns (lines 40-45). -/
def mkOrder (src : RandSrc) (i : Nat) : Order :=
  let c := cats.getD (src.categoryDraw i) ""
  let q := src.quantityDraw i
  let up := round2 (src.priceDraw i)
  let sales := round2 ((q : ℚ) * up)
  let profit := round2 (sales * profit_map c * src.jitterDraw i)
  { orderID := 3001 + i
    date := 7 * i
    region := regions.getD (src.regionDraw i) ""
    category := c
    quantity := q
    unitPrice := up
    sales := sales
    profit := profit
    profitMargin := round2 (profit / sales * 100) }

/-- The full generated dataset df (app.py lines 25-45). -/
def df (src : RandSrc) : List Order :=
  (List.range num_orders).map (mkOrder src)

/-- The sidebar filter selection (app.py lines 51-56): the chosen region
and category lists and the two endpoints of the date range, as days
relative to 2024-01-01 (the picker can produce dates outside the data,
hence Int). -/
structure FilterSel where
  selRegions : List String
  selCats : List String
  startDate : Int
  endDate : Int

/-- The filter (app.py lines 59-63): Region isin selected, Category isin
selected, and Date between the two endpoints, inclusive on both ends. -/
def filtered_df (d : List Order) (sel : FilterSel) : List Order :=
  d.filter fun o =>
    sel.selRegions.contains o.region &&
    sel.selCats.contains o.category &&
    decide (sel.startDate ≤ (o.date : Int) ∧ (o.date : Int) ≤ sel.endDate)

/-- The Filter Engine written from the words of the spec (section 4.3):
the subsequence of Orders where Region is in the selected Regions AND
Category is in the selected Categories AND start ≤ Date ≤ end. -/
def spec_filter_engine (d : List Order) (sel : FilterSel) : List Order :=
  d.filter fun o =>
    decide (o.region ∈ sel.selRegions ∧ o.category ∈ sel.selCats ∧
      sel.startDate ≤ (o.date : Int) ∧ (o.date : Int) ≤ sel.endDate)

/-- Total Sales over the filtered set (app.py line 68). -/
def total_sales (d : List Order) : ℚ := (d.map (·.sales)).sum

/-- Total Profit over the filtered set (app.py line 69). -/
def total_profit (d : List Order) : ℚ := (d.map (·.profit)).sum

/-- Row count of the filtered set (app.py line 70). -/
def total_orders (d : List Order) : Nat := d.length

/-- Series.mean: sum divided by length. -/
def sales_mean (d : List Order) : ℚ := total_sales d / (total_orders d : ℚ)

/-- Average order value (app.py line 71): the mean of Sales if the row
count is nonzero (Python truthiness of the count), else 0. -/
def avg_order_value (d : List Order) : ℚ :=
  if total_orders d ≠ 0 then sales_mean d else 0

/-- Insertion of one element into a list ordered by the boolean
comparator le. -/
def insertBy {α : Type} (le : α → α → Bool) (x : α) : List α → List α
  | [] => [x]
  | y :: ys => if le x y then x :: y :: ys else y :: insertBy le x ys

/-- Insertion sort by a boolean comparator; stands in for the sorted key
order pandas groupby produces and for sort_values. -/
def sortBy {α : Type} (le : α → α → Bool) : List α → List α
  | [] => []
  | x :: xs => insertBy le x (sortBy le xs)

/-- Lexicographic comparator on strings via character codes. -/
def lexLe : List Char → List Char → Bool
  | [], _ => true
  | _ :: _, [] => false
  | c :: cs, d :: ds =>
    if c.toNat < d.toNat then true
    else if d.toNat < c.toNat then false
    else lexLe cs ds

/-- String comparator used to order groupby keys. -/
def strLe (a b : String) : Bool := lexLe a.data b.data

/-- groupby(key)[val].sum() (app.py lines 85, 90, 96): the distinct keys
of the rows, in the sorted order pandas groupby uses, each paired with
the sum of val over the rows carrying that key. -/
def group_sum {R K : Type} [DecidableEq K] (key : R → K) (val : R → ℚ)
    (le : K → K → Bool) (rows : List R) : List (K × ℚ) :=
  (sortBy le (rows.map key).dedup).map fun k =>
    (k, ((rows.filter fun o => decide (key o = k)).map val).sum)

/-- Sales by Region (app.py line 85). -/
def region_sales (d : List Order) : List (String × ℚ) :=
  group_sum (·.region) (·.sales) strLe d

/-- Sales by Category (app.py line 90). -/
def category_sales (d : List Order) : List (String × ℚ) :=
  group_sum (·.category) (·.sales) strLe d

/-- Leap year test of the Gregorian calendar. -/
def isLeap (y : Nat) : Bool := (y % 4 == 0 && y % 100 != 0) || y % 400 == 0

/-- Days in a Gregorian year. -/
def daysInYear (y : Nat) : Nat := if isLeap y then 366 else 365

/-- Month lengths of a Gregorian year. -/
def monthLens (y : Nat) : List Nat :=
  [31, if isLeap y then 29 else 28, 31, 30, 31, 30, 31, 31, 30, 31, 30, 31]

/-- Month number (1-12) of a 0-based day offset inside a year, given the
list of month lengths still ahead. -/
def monthFromLens : List Nat → Nat → Nat → Nat
  | [], _, m => m
  | len :: rest, d, m => if d < len then m else monthFromLens rest (d - len) (m + 1)

/-- Year and month of a day offset, counting from January 1 of year y. -/
def toYM (y d : Nat) : Nat × Nat :=
  if _h : d < daysInYear y then (y, monthFromLens (monthLens y) d 1)
  else toYM (y + 1) (d - daysInYear y)
termination_by d
decreasing_by
  have h365 : 365 ≤ daysInYear y := by unfold daysInYear; split <;> omega
  omega

/-- Linear month index (year * 12 + month - 1) of a day offset relative
to 2024-01-01; the embedding of Date.dt.to_period("M") (app.py line 95),
whose order agrees with chronological order. -/
def monthIdx (d : Nat) : Nat :=
  let ym := toYM 2024 d
  ym.1 * 12 + (ym.2 - 1)

/-- A filtered row after the Month column is assigned (app.py line 95). -/
structure OrderM extends Order where
  month : Nat
deriving DecidableEq

/-- Assigning the Month column to the filtered view (app.py line 95).
Boolean-mask indexing (line 59) returns a copy, so this writes a new
column on the copy and the base DataFrame df is untouched. -/
def assignMonth (view : List Order) : List OrderM :=
  view.map fun o => { toOrder := o, month := monthIdx o.date }

/-- Monthly Sales (app.py line 96): group the month-augmented view by
the Month column and sum Sales. -/
def monthly_sales (d : List Order) : List (Nat × ℚ) :=
  group_sum (·.month) (·.sales) (fun a b => decide (a ≤ b)) (assignMonth d)

/-- Character of a decimal digit. -/
def digitChar (d : Nat) : Char := Char.ofNat (48 + d)

/-- Numeric value of a decimal digit character. -/
def charVal (c : Char) : Nat := c.toNat - 48

/-- Decimal digit character test. -/
def isDigitCh (c : Char) : Bool := decide (48 ≤ c.toNat) && decide (c.toNat ≤ 57)

/-- Little-endian decimal digits of n, with explicit fuel so the
definition is structural. -/
def natDigitsAux : Nat → Nat → List Nat
  | 0, _ => []
  | _ + 1, 0 => []
  | fuel + 1, n + 1 => ((n + 1) % 10) :: natDigitsAux fuel ((n + 1) / 10)

/-- Value of a little-endian decimal digit list. -/
def ofDig : List Nat → Nat
  | [] => 0
  | d :: ds => d + 10 * ofDig ds

/-- Decimal rendering of a natural number, as it appears in a CSV cell. -/
def natToStr (n : Nat) : String :=
  if n = 0 then "0" else String.mk (((natDigitsAux n n).map digitChar).reverse)

/-- Parsing a decimal CSV cell back to a natural number; none on a
malformed cell. -/
def strToNat (s : String) : Option Nat :=
  match s.data with
  | [] => none
  | l => if l.all isDigitCh then some (ofDig ((l.map charVal).reverse)) else none

/-- CSV cell of a monetary value: every exported numeric value is a
whole number of cents n, rendered through its cent count. -/
def renderQ (x : ℚ) : String := natToStr (x * 100).num.toNat

/-- Parsing a monetary CSV cell back to a rational. -/
def parseQ (s : String) : Option ℚ := (strToNat s).map fun n => (n : ℚ) / 100

/-- Header row written by to_csv (app.py line 113): the column order of
df (lines 27-45) followed by the Month column added on line 95. -/
def csvHeader : List String :=
  ["OrderID", "Date", "Region", "Category", "Quantity",
   "UnitPrice", "Sales", "Profit", "ProfitMargin", "Month"]

/-- The 9 fields of the Order data model as the spec lists them
(spec section 3): the raw fields plus the derived fields, without the
presentation-only Month column. -/
def orderModelFields : List String :=
  ["OrderID", "Date", "Region", "Category", "Quantity",
   "UnitPrice", "Sales", "Profit", "ProfitMargin"]

/-- One CSV data row of a filtered, month-augmented order. -/
def renderRow (o : OrderM) : List String :=
  [natToStr o.orderID, natToStr o.date, o.region, o.category,
   natToStr o.quantity, renderQ o.unitPrice, renderQ o.sales,
   renderQ o.profit, renderQ o.profitMargin, natToStr o.month]

/-- The CSV export (app.py line 113, to_csv with index=False): a header
row followed by one data row per filtered order.  The file is modelled
at the level of its parsed grid of cells. -/
def to_csv (v : List OrderM) : List (List String) := csvHeader :: v.map renderRow

/-- Parsing one CSV data row back into an order; none on a malformed
row. -/
def parseRow (r : List String) : Option OrderM :=
  match r with
  | [oid, dt, rg, ct, qy, up, sa, pr, pm, mo] => do
    let oid ← strToNat oid
    let dt ← strToNat dt
    let qy ← strToNat qy
    let up ← parseQ up
    let sa ← parseQ sa
    let pr ← parseQ pr
    let pm ← parseQ pm
    let mo ← strToNat mo
    some ⟨⟨oid, dt, rg, ct, qy, up, sa, pr, pm⟩, mo⟩
  | _ => none

/-- Parsing a whole CSV file back: check the header row, then parse each
data row. -/
def read_csv (rows : List (List String)) : Option (List OrderM) :=
  match rows with
  | [] => none
  | hdr :: body => if hdr = csvHeader then body.mapM parseRow else none

/-- A rational that is a whole nonnegative number of cents, the shape of
every monetary value the pipeline produces. -/
def Cents (x : ℚ) : Prop := ∃ n : Nat, x = (n : ℚ) / 100

/-- The monetary fields of a row are all whole cents, so the row
round-trips through the CSV cells. -/
def CsvSafe (o : Order) : Prop :=
  Cents o.unitPrice ∧ Cents o.sales ∧ Cents o.profit ∧ Cents o.profitMargin

/-- Everything the dashboard computes downstream of the filter
(app.py lines 59-114). -/
structure DashOutputs where
  filtered : List Order
  totalSales : ℚ
  totalProfit : ℚ
  totalOrders : Nat
  avgOrderValue : ℚ
  regionSales : List (String × ℚ)
  categorySales : List (String × ℚ)
  viewWithMonth : List OrderM
  monthlySales : List (Nat × ℚ)
  table : List OrderM
  csv : List (List String)

/-- Comparator sorting the displayed table by Date descending
(app.py line 111). -/
def dateDesc (a b : OrderM) : Bool := decide (b.date ≤ a.date)

/-- The whole downstream pipeline (app.py lines 59-114) with the base
dataset threaded through as explicit state: the result pairs the
computed outputs with the base dataset as it stands after every step.
Each pandas step either only reads df or writes onto a fresh copy
(boolean-mask indexing on line 59 returns a copy; the Month column
assignment on line 95 and the sort on line 111 act on that copy), so
the final base is the input df itself. -/
def runDashboard (d : List Order) (sel : FilterSel) : DashOutputs × List Order :=
  let fdf := filtered_df d sel
  let v := assignMonth fdf
  (⟨fdf, total_sales fdf, total_profit fdf, total_orders fdf, avg_order_value fdf,
    region_sales fdf, category_sales fdf, v, monthly_sales fdf,
    sortBy dateDesc v, to_csv v⟩, d)

/-- Reading both endpoints of the date_input value (app.py lines 53-62):
date_range[0] and date_range[1] are positional accesses into whatever
tuple of dates the picker currently holds; a missing index is an
IndexError, modelled as none. -/
def apply_filters (d : List Order) (regs cs : List String) (dr : List Int) :
    Option (List Order) :=
  (dr.get? 0).bind fun a => (dr.get? 1).map fun b =>
    filtered_df d ⟨regs, cs, a, b⟩

/-- A concrete run of the numpy streams, inside the documented ranges:
used to instantiate theorems at a concrete input. -/
def constSrc : RandSrc :=
  ⟨fun _ => 0, fun _ => 0, fun _ => 1, fun _ => 50, fun _ => 1⟩

theorem floor_le_rhe (x : ℚ) : ⌊x⌋ ≤ rhe x := by
  unfold rhe; split_ifs <;> omega

theorem rhe_le_floor_add_one (x : ℚ) : rhe x ≤ ⌊x⌋ + 1 := by
  unfold rhe; split_ifs <;> omega

theorem rhe_nonneg {x : ℚ} (hx : 0 ≤ x) : 0 ≤ rhe x :=
  le_trans (Int.le_floor.mpr (by exact_mod_cast hx)) (floor_le_rhe x)

theorem rhe_ge_of_le {k : ℤ} {x : ℚ} (h : (k : ℚ) ≤ x) : k ≤ rhe x :=
  le_trans (Int.le_floor.mpr h) (floor_le_rhe x)

theorem rhe_intCast (k : ℤ) : rhe (k : ℚ) = k := by
  unfold rhe
  rw [Int.floor_intCast]
  norm_num

theorem rhe_le_of_le {k : ℤ} {x : ℚ} (h : x ≤ (k : ℚ)) : rhe x ≤ k := by
  have hf : ⌊x⌋ ≤ k := by
    have := Int.floor_le_floor h
    rwa [Int.floor_intCast] at this
  rcases lt_or_eq_of_le hf with hlt | heq
  · exact le_trans (rhe_le_floor_add_one x) (by omega)
  · have hxk : x = (k : ℚ) := le_antisymm h (heq ▸ Int.floor_le x)
    rw [hxk, rhe_intCast]

theorem round2_nonneg {x : ℚ} (hx : 0 ≤ x) : 0 ≤ round2 x := by
  unfold round2
  have h0 : 0 ≤ rhe (x * 100) := rhe_nonneg (by positivity)
  positivity

theorem round2_cents {x : ℚ} (hx : 0 ≤ x) : Cents (round2 x) := by
  refine ⟨(rhe (x * 100)).toNat, ?_⟩
  have h0 : 0 ≤ rhe (x * 100) := rhe_nonneg (by positivity)
  unfold round2
  congr 1
  exact_mod_cast (Int.toNat_of_nonneg h0).symm

theorem round2_ge {k : ℤ} {x : ℚ} (h : (k : ℚ) ≤ x) : (k : ℚ) ≤ round2 x := by
  unfold round2
  rw [le_div_iff₀ (by norm_num : (0 : ℚ) < 100)]
  have : k * 100 ≤ rhe (x * 100) := rhe_ge_of_le (by push_cast; linarith)
  exact_mod_cast this

theorem round2_le {k : ℤ} {x : ℚ} (h : x ≤ (k : ℚ)) : round2 x ≤ (k : ℚ) := by
  unfold round2
  rw [div_le_iff₀ (by norm_num : (0 : ℚ) < 100)]
  have : rhe (x * 100) ≤ k * 100 := rhe_le_of_le (by push_cast; linarith)
  exact_mod_cast this

theorem insertBy_perm {α : Type} (le : α → α → Bool) (x : α) (l : List α) :
    (insertBy le x l).Perm (x :: l) := by
  induction l with
  | nil => exact List.Perm.refl _
  | cons y ys ih =>
    unfold insertBy
    split
    · exact List.Perm.refl _
    · exact (ih.cons y).trans (List.Perm.swap x y ys)

theorem sortBy_perm {α : Type} (le : α → α → Bool) (l : List α) :
    (sortBy le l).Perm l := by
  induction l with
  | nil => exact List.Perm.refl _
  | cons x xs ih => exact (insertBy_perm le x (sortBy le xs)).trans (ih.cons x)

theorem sum_filter_split {R : Type} (g : R → ℚ) (p : R → Bool) (d : List R) :
    ((d.filter p).map g).sum + ((d.filter fun o => !(p o)).map g).sum
      = (d.map g).sum := by
  induction d with
  | nil => simp
  | cons a l ih => cases h : p a <;> simp [List.filter_cons, h] <;> linarith [ih]

theorem sum_over_keys {R K : Type} [DecidableEq K] (key : R → K) (g : R → ℚ) :
    ∀ ks : List K, ks.Nodup → ∀ d : List R, (∀ o ∈ d, key o ∈ ks) →
      (ks.map fun k => ((d.filter fun o => decide (key o = k)).map g).sum).sum
        = (d.map g).sum := by
  intro ks
  induction ks with
  | nil =>
    intro _ d hcov
    cases d with
    | nil => simp
    | cons a l => exact absurd (hcov a (List.mem_cons_self a l)) (List.not_mem_nil _)
  | cons k ks ih =>
    intro hnd d hcov
    have hk : k ∉ ks := (List.nodup_cons.mp hnd).1
    have hnd2 : ks.Nodup := (List.nodup_cons.mp hnd).2
    have hcov2 : ∀ o ∈ d.filter (fun o => !(decide (key o = k))), key o ∈ ks := by
      intro o ho
      rcases List.mem_filter.mp ho with ⟨hod, hne⟩
      have hne2 : key o ≠ k := by simpa using hne
      rcases List.mem_cons.mp (hcov o hod) with h | h
      · exact absurd h hne2
      · exact h
    have hsame : ∀ k2 ∈ ks,
        ((d.filter fun o => !(decide (key o = k))).filter fun o => decide (key o = k2))
          = d.filter fun o => decide (key o = k2) := by
      intro k2 hk2
      rw [List.filter_filter]
      apply List.filter_congr
      intro o _
      by_cases h : key o = k2
      · have hok : key o ≠ k := fun hc => hk (hc ▸ h ▸ hk2)
        have hkk : k2 ≠ k := fun hc => hk (hc ▸ hk2)
        simp [h, hok, hkk]
      · simp [h]
    simp only [List.map_cons, List.sum_cons]
    have hmap : (ks.map fun k2 => ((d.filter fun o => decide (key o = k2)).map g).sum)
        = ks.map fun k2 =>
            (((d.filter fun o => !(decide (key o = k))).filter
              fun o => decide (key o = k2)).map g).sum := by
      apply List.map_congr_left
      intro k2 hk2
      rw [hsame k2 hk2]
    rw [hmap, ih hnd2 _ hcov2]
    exact sum_filter_split g (fun o => decide (key o = k)) d

theorem group_sum_total {R K : Type} [DecidableEq K] (key : R → K) (val : R → ℚ)
    (le : K → K → Bool) (rows : List R) :
    ((group_sum key val le rows).map Prod.snd).sum = (rows.map val).sum := by
  unfold group_sum
  rw [List.map_map]
  have hperm : (sortBy le (rows.map key).dedup).Perm (rows.map key).dedup :=
    sortBy_perm le _
  have hnd : (sortBy le (rows.map key).dedup).Nodup :=
    hperm.nodup_iff.mpr (List.nodup_dedup _)
  have hcov : ∀ o ∈ rows, key o ∈ sortBy le (rows.map key).dedup := by
    intro o ho
    rw [hperm.mem_iff]
    exact List.mem_dedup.mpr (List.mem_map_of_mem key ho)
  exact sum_over_keys key val _ hnd rows hcov

theorem ofDig_natDigitsAux : ∀ fuel n, n ≤ fuel → ofDig (natDigitsAux fuel n) = n := by
  intro fuel
  induction fuel with
  | zero => intro n hn; interval_cases n; rfl
  | succ f ih =>
    intro n hn
    cases n with
    | zero => rfl
    | succ m =>
      simp only [natDigitsAux, ofDig]
      have hdiv : (m + 1) / 10 ≤ f := by
        have := Nat.div_lt_self (Nat.succ_pos m) (by norm_num : 1 < 10)
        omega
      rw [ih _ hdiv]
      omega

theorem natDigitsAux_lt_ten : ∀ fuel n, ∀ d ∈ natDigitsAux fuel n, d < 10 := by
  intro fuel
  induction fuel with
  | zero => intro n d hd; simp [natDigitsAux] at hd
  | succ f ih =>
    intro n d hd
    cases n with
    | zero => simp [natDigitsAux] at hd
    | succ m =>
      simp only [natDigitsAux, List.mem_cons] at hd
      rcases hd with h | h
      · omega
      · exact ih _ _ h

theorem natDigitsAux_ne_nil {fuel n : Nat} (h1 : 0 < n) (h2 : n ≤ fuel) :
    natDigitsAux fuel n ≠ [] := by
  cases fuel with
  | zero => omega
  | succ f =>
    cases n with
    | zero => omega
    | succ m => simp [natDigitsAux]

theorem charVal_digitChar {d : Nat} (h : d < 10) : charVal (digitChar d) = d := by
  interval_cases d <;> decide

theorem isDigitCh_digitChar {d : Nat} (h : d < 10) : isDigitCh (digitChar d) = true := by
  interval_cases d <;> decide

theorem strToNat_mk (l : List Char) (hne : l ≠ [])
    (hall : ∀ c ∈ l, isDigitCh c = true) :
    strToNat (String.mk l) = some (ofDig ((l.map charVal).reverse)) := by
  cases l with
  | nil => exact absurd rfl hne
  | cons c cs =>
    show (if (c :: cs).all isDigitCh then
        some (ofDig (((c :: cs).map charVal).reverse)) else none) = _
    rw [if_pos (List.all_eq_true.mpr hall)]

theorem strToNat_natToStr (n : Nat) : strToNat (natToStr n) = some n := by
  rcases Nat.eq_zero_or_pos n with h0 | hpos
  · subst h0; decide
  · unfold natToStr
    rw [if_neg (by omega)]
    have hlt : ∀ d ∈ natDigitsAux n n, d < 10 := natDigitsAux_lt_ten n n
    have hne : ((natDigitsAux n n).map digitChar).reverse ≠ [] := by
      intro hc
      apply natDigitsAux_ne_nil hpos (le_refl n)
      have := congrArg List.reverse hc
      rw [List.reverse_reverse] at this
      exact List.map_eq_nil_iff.mp this
    have hall : ∀ c ∈ ((natDigitsAux n n).map digitChar).reverse,
        isDigitCh c = true := by
      intro c hc
      rw [List.mem_reverse] at hc
      rcases List.mem_map.mp hc with ⟨d, hd, rfl⟩
      exact isDigitCh_digitChar (hlt d hd)
    rw [strToNat_mk _ hne hall]
    congr 1
    rw [List.map_reverse, List.reverse_reverse, List.map_map]
    have hmc : (natDigitsAux n n).map (charVal ∘ digitChar) = natDigitsAux n n := by
      have := List.map_congr_left (l := natDigitsAux n n)
        (f := charVal ∘ digitChar) (g := id)
        (fun d hd => charVal_digitChar (hlt d hd))
      rw [this, List.map_id]
    rw [hmc]
    exact ofDig_natDigitsAux n n (le_refl n)

theorem parseQ_renderQ {x : ℚ} (hx : Cents x) : parseQ (renderQ x) = some x := by
  obtain ⟨n, rfl⟩ := hx
  unfold renderQ parseQ
  have h1 : ((n : ℚ) / 100) * 100 = (n : ℚ) :=
    div_mul_cancel₀ _ (by norm_num : (100 : ℚ) ≠ 0)
  rw [h1, Rat.num_natCast, Int.toNat_natCast, strToNat_natToStr]
  rfl

theorem mkOrder_unitPrice (src : RandSrc) (i : Nat) :
    (mkOrder src i).unitPrice = round2 (src.priceDraw i) := rfl

theorem mkOrder_sales (src : RandSrc) (i : Nat) :
    (mkOrder src i).sales
      = round2 ((src.quantityDraw i : ℚ) * round2 (src.priceDraw i)) := rfl

theorem mkOrder_profit (src : RandSrc) (i : Nat) :
    (mkOrder src i).profit
      = round2 ((mkOrder src i).sales * profit_map (mkOrder src i).category
          * src.jitterDraw i) := rfl

theorem mkOrder_profitMargin (src : RandSrc) (i : Nat) :
    (mkOrder src i).profitMargin
      = round2 ((mkOrder src i).profit / (mkOrder src i).sales * 100) := rfl

theorem mkOrder_quantity (src : RandSrc) (i : Nat) :
    (mkOrder src i).quantity = src.quantityDraw i := rfl

theorem profit_map_nonneg (c : String) : 0 ≤ profit_map c := by
  unfold profit_map
  split_ifs <;> norm_num

theorem df_length (src : RandSrc) : (df src).length = 120 := by
  simp [df, num_orders]

theorem df_getElem (src : RandSrc) {i : Nat} (hi : i < 120) :
    (df src)[i]? = some (mkOrder src i) := by
  unfold df
  rw [List.getElem?_map, List.getElem?_range (by simpa [num_orders] using hi)]
  rfl

theorem mem_df (src : RandSrc) {o : Order} (ho : o ∈ df src) :
    ∃ i, i < 120 ∧ o = mkOrder src i := by
  unfold df at ho
  rcases List.mem_map.mp ho with ⟨i, hi, rfl⟩
  exact ⟨i, by simpa [num_orders] using List.mem_range.mp hi, rfl⟩

theorem mkOrder_csvSafe {src : RandSrc} (hs : ValidSrc src) (i : Nat) :
    CsvSafe (mkOrder src i) := by
  obtain ⟨-, -, -, hp, hj⟩ := hs
  have hp1 : (0 : ℚ) ≤ src.priceDraw i := le_trans (by norm_num) (hp i).1
  have hup : 0 ≤ (mkOrder src i).unitPrice := by
    rw [mkOrder_unitPrice]; exact round2_nonneg hp1
  have hsal : 0 ≤ (mkOrder src i).sales := by
    rw [mkOrder_sales]
    exact round2_nonneg (mul_nonneg (Nat.cast_nonneg _)
      (round2_nonneg hp1))
  have hjp : (0 : ℚ) ≤ src.jitterDraw i := le_trans (by norm_num) (hj i).1
  have hprof : 0 ≤ (mkOrder src i).profit := by
    rw [mkOrder_profit]
    exact round2_nonneg (mul_nonneg (mul_nonneg hsal (profit_map_nonneg _)) hjp)
  refine ⟨?_, ?_, ?_, ?_⟩
  · rw [mkOrder_unitPrice]; exact round2_cents hp1
  · rw [mkOrder_sales]
    exact round2_cents (mul_nonneg (Nat.cast_nonneg _) (round2_nonneg hp1))
  · rw [mkOrder_profit]
    exact round2_cents (mul_nonneg (mul_nonneg hsal (profit_map_nonneg _)) hjp)
  · rw [mkOrder_profitMargin]
    exact round2_cents (mul_nonneg (div_nonneg hprof hsal) (by norm_num))

theorem constSrc_valid : ValidSrc constSrc := by
  refine ⟨fun i => ?_, fun i => ?_, fun i => ?_, fun i => ?_, fun i => ?_⟩ <;>
    norm_num [constSrc]

theorem parseRow_renderRow {o : OrderM} (h : CsvSafe o.toOrder) :
    parseRow (renderRow o) = some o := by
  obtain ⟨h1, h2, h3, h4⟩ := h
  unfold renderRow parseRow
  simp only [strToNat_natToStr, parseQ_renderQ h1, parseQ_renderQ h2,
    parseQ_renderQ h3, parseQ_renderQ h4, Option.bind_eq_bind,
    Option.some_bind]

theorem mapM_parse_render : ∀ v : List OrderM, (∀ o ∈ v, CsvSafe o.toOrder) →
    (v.map renderRow).mapM parseRow = some v := by
  intro v
  induction v with
  | nil => intro _; rfl
  | cons o os ih =>
    intro h
    rw [List.map_cons, List.mapM_cons,
      parseRow_renderRow (h o (List.mem_cons_self o os)),
      ih fun p hp => h p (List.mem_cons_of_mem o hp)]
    rfl

theorem read_csv_to_csv {v : List OrderM} (h : ∀ o ∈ v, CsvSafe o.toOrder) :
    read_csv (to_csv v) = some v := by
  show (if csvHeader = csvHeader then (v.map renderRow).mapM parseRow
    else none) = some v
  rw [if_pos rfl]
  exact mapM_parse_render v h

/-- Claim C1: dataset generation is deterministic and reproducible: the
dataset is a pure function of the seeded random streams, so two runs of
the generator that see the same streams (the streams np.random.seed
fixes for the constant seed) produce the identical list of exactly 120
Order records, equal in every field including the jitter-dependent
Profit. -/
theorem c1_generation_deterministic (src1 src2 : RandSrc) (h : src1 = src2) :
    df src1 = df src2 ∧ (df src1).length = 120 := by
  subst h
  exact ⟨rfl, df_length src1⟩

theorem c1_witness : df constSrc = df constSrc ∧ (df constSrc).length = 120 :=
  c1_generation_deterministic constSrc constSrc rfl

/-- Claim C2: the Filter Engine returns exactly the subsequence of
Orders with Region in the selected Regions, Category in the selected
Categories and Date inside the inclusive interval, preserving the
original row order (it is a sublist of the dataset), and an empty
selected-Region or selected-Category list yields an empty result. -/
theorem c2_filter_exact (d : List Order) (sel : FilterSel) :
    (filtered_df d sel).Sublist d ∧
    filtered_df d sel = spec_filter_engine d sel ∧
    filtered_df d ⟨[], sel.selCats, sel.startDate, sel.endDate⟩ = [] ∧
    filtered_df d ⟨sel.selRegions, [], sel.startDate, sel.endDate⟩ = [] := by
  refine ⟨List.filter_sublist d, ?_, ?_, ?_⟩
  · unfold filtered_df spec_filter_engine
    apply List.filter_congr
    intro o _
    rw [Bool.eq_iff_iff]
    simp [and_assoc]
  · exact List.filter_eq_nil_iff.mpr fun o _ => by simp
  · exact List.filter_eq_nil_iff.mpr fun o _ => by simp

/-- Claim C3: every generated row satisfies the derived-field formulas:
Sales is Quantity times UnitPrice rounded to 2 decimals, Profit is
Sales times the category margin rate (Electronics 0.12, Furniture 0.20,
Clothing 0.35, Sports 0.25) times a per-row jitter factor in
[0.9, 1.1], rounded to 2 decimals, and ProfitMargin is Profit over
Sales times 100 rounded to 2 decimals. -/
theorem c3_derived_formulas (src : RandSrc) (hs : ValidSrc src) :
    profit_map "Electronics" = 12/100 ∧ profit_map "Furniture" = 20/100 ∧
    profit_map "Clothing" = 35/100 ∧ profit_map "Sports" = 25/100 ∧
    ∀ o ∈ df src,
      o.sales = round2 ((o.quantity : ℚ) * o.unitPrice) ∧
      (∃ j : ℚ, 9/10 ≤ j ∧ j ≤ 11/10 ∧
        o.profit = round2 (o.sales * profit_map o.category * j)) ∧
      o.profitMargin = round2 (o.profit / o.sales * 100) := by
  refine ⟨rfl, rfl, rfl, rfl, ?_⟩
  intro o ho
  rcases mem_df src ho with ⟨i, -, rfl⟩
  refine ⟨rfl, ⟨src.jitterDraw i, (hs.2.2.2.2 i).1,
    le_of_lt (hs.2.2.2.2 i).2, rfl⟩, rfl⟩

theorem c3_witness :
    profit_map "Electronics" = 12/100 ∧ profit_map "Furniture" = 20/100 ∧
    profit_map "Clothing" = 35/100 ∧ profit_map "Sports" = 25/100 ∧
    ∀ o ∈ df constSrc,
      o.sales = round2 ((o.quantity : ℚ) * o.unitPrice) ∧
      (∃ j : ℚ, 9/10 ≤ j ∧ j ≤ 11/10 ∧
        o.profit = round2 (o.sales * profit_map o.category * j)) ∧
      o.profitMargin = round2 (o.profit / o.sales * 100) :=
  c3_derived_formulas constSrc constSrc_valid

/-- Claim C4: the generated dataset has exactly 120 rows and row i has
OrderID 3001 + i, Date 2024-01-01 plus 7 times i days (date stored as
the day offset 7 * i), an integer Quantity between 1 and 5, and a
UnitPrice in [50, 1000] equal to a whole number of hundredths. -/
theorem c4_generated_rows (src : RandSrc) (hs : ValidSrc src) :
    (df src).length = 120 ∧
    ∀ i, i < 120 →
      (df src)[i]? = some (mkOrder src i) ∧
      (mkOrder src i).orderID = 3001 + i ∧
      (mkOrder src i).date = 7 * i ∧
      1 ≤ (mkOrder src i).quantity ∧ (mkOrder src i).quantity ≤ 5 ∧
      (50 : ℚ) ≤ (mkOrder src i).unitPrice ∧
      (mkOrder src i).unitPrice ≤ 1000 ∧
      ∃ n : ℤ, (mkOrder src i).unitPrice = (n : ℚ) / 100 := by
  obtain ⟨-, -, hq, hp, -⟩ := hs
  refine ⟨df_length src, fun i hi => ⟨df_getElem src hi, rfl, rfl,
    by rw [mkOrder_quantity]; exact (hq i).1,
    by rw [mkOrder_quantity]; have := (hq i).2; omega, ?_, ?_, ?_⟩⟩
  · rw [mkOrder_unitPrice]
    have h50 : ((50 : ℤ) : ℚ) ≤ src.priceDraw i := by push_cast; exact (hp i).1
    have := round2_ge h50
    push_cast at this
    exact this
  · rw [mkOrder_unitPrice]
    have hk : src.priceDraw i ≤ ((1000 : ℤ) : ℚ) := by
      push_cast; exact le_of_lt (hp i).2
    have := round2_le hk
    push_cast at this
    exact this
  · exact ⟨rhe (src.priceDraw i * 100), rfl⟩

theorem c4_witness :
    (df constSrc).length = 120 ∧
    ∀ i, i < 120 →
      (df constSrc)[i]? = some (mkOrder constSrc i) ∧
      (mkOrder constSrc i).orderID = 3001 + i ∧
      (mkOrder constSrc i).date = 7 * i ∧
      1 ≤ (mkOrder constSrc i).quantity ∧ (mkOrder constSrc i).quantity ≤ 5 ∧
      (50 : ℚ) ≤ (mkOrder constSrc i).unitPrice ∧
      (mkOrder constSrc i).unitPrice ≤ 1000 ∧
      ∃ n : ℤ, (mkOrder constSrc i).unitPrice = (n : ℚ) / 100 :=
  c4_generated_rows constSrc constSrc_valid

/-- Claim C5: partition property: for every filtered dataset the sum of
the per-region grouped Sales equals the total Sales of the set, and the
same holds for the per-category and the per-calendar-month groupings. -/
theorem c5_partition (d : List Order) :
    ((region_sales d).map Prod.snd).sum = total_sales d ∧
    ((category_sales d).map Prod.snd).sum = total_sales d ∧
    ((monthly_sales d).map Prod.snd).sum = total_sales d := by
  refine ⟨group_sum_total _ _ _ d, group_sum_total _ _ _ d, ?_⟩
  unfold monthly_sales
  rw [group_sum_total]
  unfold total_sales assignMonth
  rw [List.map_map]
  rfl

/-- Claim C6: every aggregation accepts an empty filtered dataset and
yields zero or empty results, and the average order value is the mean
of Sales when the row count is positive and 0 when the row count is
0. -/
theorem c6_empty_and_mean (d : List Order) :
    avg_order_value d = (if total_orders d = 0 then 0 else sales_mean d) ∧
    total_sales ([] : List Order) = 0 ∧
    total_profit ([] : List Order) = 0 ∧
    total_orders ([] : List Order) = 0 ∧
    avg_order_value ([] : List Order) = 0 ∧
    region_sales ([] : List Order) = [] ∧
    category_sales ([] : List Order) = [] ∧
    monthly_sales ([] : List Order) = [] := by
  refine ⟨?_, rfl, rfl, rfl, rfl, rfl, rfl, rfl⟩
  by_cases h : total_orders d = 0 <;> simp [avg_order_value, h]

/-- Claim C7: a filter selection whose date interval has start greater
than end produces an empty result (the filter is a total function, so
no error is raised). -/
theorem c7_inverted_range (d : List Order) (sel : FilterSel)
    (h : sel.endDate < sel.startDate) : filtered_df d sel = [] := by
  apply List.filter_eq_nil_iff.mpr
  intro o _
  simp only [Bool.and_eq_true, decide_eq_true_eq, not_and]
  intro _ _ hd
  omega

theorem c7_witness :
    (3 : Int) < 10 ∧
    filtered_df [mkOrder constSrc 0] ⟨["North"], ["Electronics"], 10, 3⟩ = [] :=
  ⟨by norm_num, c7_inverted_range _ _ (by norm_num)⟩

/-- Claim C8 as stated is false: the exported CSV does not carry the
fields of the Order data model and no more, because the Month column
assigned on line 95 is still part of filtered_df when line 113 exports
it, so the header is the 9 Order fields plus Month. -/
theorem c8_counterexample :
    (to_csv (assignMonth (filtered_df [mkOrder constSrc 0]
        ⟨["North"], ["Electronics"], 0, 1000⟩))).head? = some csvHeader ∧
    "Month" ∈ csvHeader ∧ "Month" ∉ orderModelFields ∧
    csvHeader ≠ orderModelFields :=
  ⟨rfl, by decide, by decide, by decide⟩

/-- Claim C8 (amended): for every filtered dataset the exported CSV has
one data row per filtered order plus a header row, and parsing the CSV
back reconstructs exactly the filtered rows and values; the exported
columns are the fields of the Order data model plus the Month column
added before export. -/
theorem c8_csv_round_trip (src : RandSrc) (sel : FilterSel)
    (hs : ValidSrc src) :
    (to_csv (assignMonth (filtered_df (df src) sel))).length
      = (filtered_df (df src) sel).length + 1 ∧
    (to_csv (assignMonth (filtered_df (df src) sel))).head? = some csvHeader ∧
    csvHeader = orderModelFields ++ ["Month"] ∧
    read_csv (to_csv (assignMonth (filtered_df (df src) sel)))
      = some (assignMonth (filtered_df (df src) sel)) := by
  refine ⟨?_, rfl, by decide, ?_⟩
  · simp [to_csv, assignMonth]
  · apply read_csv_to_csv
    intro o ho
    rcases List.mem_map.mp ho with ⟨p, hp, rfl⟩
    have hpd : p ∈ df src := (List.filter_sublist (df src)).mem hp
    rcases mem_df src hpd with ⟨i, -, rfl⟩
    exact mkOrder_csvSafe hs i

theorem c8_witness :
    (to_csv (assignMonth (filtered_df (df constSrc)
        ⟨["North"], ["Electronics"], 0, 1000⟩))).length
      = (filtered_df (df constSrc) ⟨["North"], ["Electronics"], 0, 1000⟩).length
          + 1 ∧
    (to_csv (assignMonth (filtered_df (df constSrc)
        ⟨["North"], ["Electronics"], 0, 1000⟩))).head? = some csvHeader ∧
    csvHeader = orderModelFields ++ ["Month"] ∧
    read_csv (to_csv (assignMonth (filtered_df (df constSrc)
        ⟨["North"], ["Electronics"], 0, 1000⟩)))
      = some (assignMonth (filtered_df (df constSrc)
          ⟨["North"], ["Electronics"], 0, 1000⟩)) :=
  c8_csv_round_trip constSrc ⟨["North"], ["Electronics"], 0, 1000⟩
    constSrc_valid

/-- Claim C9: the base dataset is never mutated downstream: running the
whole pipeline (filter, metrics, group-by charts, Month assignment on
the filtered copy, table sort, CSV export) with the base dataset
threaded through as explicit state returns the base dataset unchanged,
and the Month assignment keeps every underlying Order row of the
filtered view intact. -/
theorem c9_base_immutable (d : List Order) (sel : FilterSel) :
    (runDashboard d sel).2 = d ∧
    (runDashboard d sel).1.filtered = filtered_df d sel ∧
    (runDashboard d sel).1.viewWithMonth.map OrderM.toOrder
      = filtered_df d sel := by
  refine ⟨rfl, rfl, ?_⟩
  show (assignMonth (filtered_df d sel)).map OrderM.toOrder = filtered_df d sel
  unfold assignMonth
  rw [List.map_map]
  exact List.map_id (filtered_df d sel)

/-- Claim C10: the filter step indexes both endpoints of the date-range
selection, so a selection of exactly two dates filters successfully,
while a selection of fewer than two dates makes the second access fall
out of range and filtering fails (none) instead of returning a filtered
view. -/
theorem c10_two_endpoint_access (d : List Order) (regs cs : List String)
    (a b x : Int) :
    apply_filters d regs cs [a, b] = some (filtered_df d ⟨regs, cs, a, b⟩) ∧
    apply_filters d regs cs [] = none ∧
    apply_filters d regs cs [x] = none :=
  ⟨rfl, rfl, rfl⟩

end InsightTrack
